import Mathlib

set_option maxHeartbeats 1000000

/-!
Shallow embedding of the QI_Bot scheduling core (schedule resolver, loader,
cycle clock, dispatch engine, sent-event ledger, D1 snapshot job) and proofs
of the specification claims about it.

Python values are modelled by the inductive `Val`; Python dicts by
association lists with first-match lookup.  Fallible Python code (statements
that can raise) is modelled with `Option`; `none` is a raised exception.
-/

namespace QiBot

/-- JSON-like values as they occur in a parsed schedule document
(model of the Python values the resolver manipulates). -/
inductive Val where
  | vNull
  | vBool (b : Bool)
  | vInt (n : Int)
  | vStr (s : String)
  | vList (xs : List Val)
  | vDict (m : List (String × Val))
  deriving Repr

/-- A Python dict with string keys, as an association list (first match wins). -/
abbrev Obj := List (String × Val)

/-- `d.get(k)`: the first binding of key `k`, if any. -/
def dictGet (o : Obj) (k : String) : Option Val :=
  match o with
  | [] => none
  | (k', v) :: rest => if k' = k then some v else dictGet rest k

/-- `k in d`. -/
def dictContains (o : Obj) (k : String) : Bool :=
  (dictGet o k).isSome

/-- `d.pop(k, None)` / key removal: drop every binding of `k`. -/
def dictErase (o : Obj) (k : String) : Obj :=
  match o with
  | [] => []
  | (k', v) :: rest => if k' = k then dictErase rest k else (k', v) :: dictErase rest k

/-- `d[k] = v`: replace the first binding in place, else append at the end. -/
def dictSet (o : Obj) (k : String) (v : Val) : Obj :=
  match o with
  | [] => [(k, v)]
  | (k', v') :: rest => if k' = k then (k', v) :: rest else (k', v') :: dictSet rest k v

/-- `base.update(other)`: set each of `other`'s bindings, in order. -/
def dictUpdate (base other : Obj) : Obj :=
  other.foldl (fun acc p => dictSet acc p.1 p.2) base

/-- Python truthiness of a value. -/
def pyTruthy : Val → Bool
  | .vNull => false
  | .vBool b => b
  | .vInt n => n != 0
  | .vStr s => !s.isEmpty
  | .vList xs => !xs.isEmpty
  | .vDict m => !m.isEmpty

mutual

/-- Python `repr` of a value (used by `str` on containers). -/
def pyRepr : Val → String
  | .vNull => "None"
  | .vBool true => "True"
  | .vBool false => "False"
  | .vInt n => toString n
  | .vStr s => "'" ++ s ++ "'"
  | .vList xs => "[" ++ String.intercalate ", " (pyReprList xs) ++ "]"
  | .vDict m => "\x7b" ++ String.intercalate ", " (pyReprDict m) ++ "\x7d"

/-- `repr` of each element of a list. -/
def pyReprList : List Val → List String
  | [] => []
  | v :: vs => pyRepr v :: pyReprList vs

/-- `repr` of each `key: value` entry of a dict. -/
def pyReprDict : List (String × Val) → List String
  | [] => []
  | (k, v) :: m => ("'" ++ k ++ "': " ++ pyRepr v) :: pyReprDict m

end

/-- Python `str` of a value (what `str.format` interpolates for a field). -/
def pyStrOfVal : Val → String
  | .vStr s => s
  | v => pyRepr v

/-- ASCII whitespace, the printable subset of what Python `str.strip` strips
(the schedule documents contain no exotic Unicode whitespace). -/
def pyWhitespace (c : Char) : Bool :=
  c == ' ' || c == '\t' || c == '\n' || c == '\r' || c == '\x0b' || c == '\x0c'

/-- Python `str.strip()`. -/
def pyStrip (s : String) : String :=
  String.mk (((s.data.dropWhile pyWhitespace).reverse.dropWhile pyWhitespace).reverse)

/-- Does a replacement-field name use format machinery our model does not cover
(attribute/index access, conversion, format spec, positional auto-numbering)?
All of those either raise with keyword-only arguments or go beyond a plain
keyword lookup, so the model reports failure for them. -/
def fieldNameBad (name : List Char) : Bool :=
  name.isEmpty ||
  name.any (fun c => c == '.' || c == '[' || c == ']' || c == '!' || c == ':' || c == '\x7b') ||
  name.all (fun c => c.isDigit)

/-- Look up one replacement field of `str.format(**vars)`:
a plain keyword name found in `vars` interpolates its `str`; a missing key
(`KeyError`) or unmodelled field machinery is a failure. -/
def fieldLookup (vars : Obj) (name : List Char) : Option String :=
  if fieldNameBad name then none
  else
    match dictGet vars (String.mk name) with
    | some v => some (pyStrOfVal v)
    | none => none

mutual

/-- The scanning loop of Python `str.format(**vars)` over the template's
characters: `\x7b\x7b`/`\x7d\x7d` are escapes, `\x7b ... \x7d` is a
replacement field, a lone `\x7d` is an error. -/
def pyFmt (vars : Obj) : List Char → Option (List Char)
  | [] => some []
  | '{' :: '{' :: rest => (pyFmt vars rest).map (fun r => '{' :: r)
  | '}' :: '}' :: rest => (pyFmt vars rest).map (fun r => '}' :: r)
  | '}' :: _ => none
  | '{' :: rest => pyFmtField vars [] rest
  | c :: rest => (pyFmt vars rest).map (fun r => c :: r)

/-- Scan a replacement field up to its closing brace, then substitute. -/
def pyFmtField (vars : Obj) (acc : List Char) : List Char → Option (List Char)
  | [] => none
  | '}' :: rest =>
      match fieldLookup vars acc.reverse with
      | some s => (pyFmt vars rest).map (fun r => s.data ++ r)
      | none => none
  | c :: rest => pyFmtField vars (c :: acc) rest

end

/-- `text.format(**vars)` as an `Option`: `none` is a raised exception. -/
def pyFormat (text : String) (vars : Obj) : Option String :=
  (pyFmt vars text.data).map String.mk

/-- `schedule_data.get("templates", {})` ready for a `.get` call:
`none` models the `AttributeError` when the `templates` entry is not a dict. -/
def getTemplates (d : Obj) : Option Obj :=
  match dictGet d "templates" with
  | none => some []
  | some (.vDict ts) => some ts
  | some _ => none

/-- The template-merge prefix of `resolve_event`:
pop `use`; when its value is truthy, look the template up by exact name and
overlay the template first, then the event's own fields (`merged.update(out)`).
`none` models a raised `TypeError` (truthy unhashable `use` value) or
`AttributeError` (non-dict template being `update`d / non-dict `templates`). -/
def mergeStep (event scheduleData : Obj) : Option Obj :=
  match dictGet event "use" with
  | none => some (dictErase event "use")
  | some u =>
    if pyTruthy u then
      match u with
      | .vStr s =>
        match getTemplates scheduleData with
        | none => none
        | some ts =>
          match dictGet ts s with
          | some (.vDict tmpl) =>
              if pyTruthy (.vDict tmpl) then some (dictUpdate tmpl (dictErase event "use"))
              else some (dictErase event "use")
          | some v => if pyTruthy v then none else some (dictErase event "use")
          | none => some (dictErase event "use")
      | .vInt _ => some (dictErase event "use")
      | .vBool _ => some (dictErase event "use")
      | .vNull => some (dictErase event "use")
      | .vList _ => none
      | .vDict _ => none
    else some (dictErase event "use")

/-- `if "image" in out and out["image"] is None: out.pop("image", None)`. -/
def imageStep (out : Obj) : Obj :=
  match dictGet out "image" with
  | some .vNull => dictErase out "image"
  | _ => out

/-- Pop `vars`; when it is a dict and `text` is a string, format `text`
best-effort, keeping the original text when formatting raises. -/
def varsStep (out : Obj) : Obj :=
  match dictGet out "vars" with
  | some (.vDict vs) =>
    match dictGet (dictErase out "vars") "text" with
    | some (.vStr t) =>
      match pyFormat t vs with
      | some t2 => dictSet (dictErase out "vars") "text" (.vStr t2)
      | none => dictErase out "vars"
    | _ => dictErase out "vars"
  | _ => dictErase out "vars"

/-- `resolve_event` from `src/qi_bot/schedule/resolver.py`:
template merge, null-image removal, best-effort variable substitution.
`none` models a raised exception inside the merge machinery. -/
def resolve_event (event scheduleData : Obj) : Option Obj :=
  (mergeStep event scheduleData).map (fun o => varsStep (imageStep o))

/-- `collect_files` from `src/qi_bot/schedule/resolver.py`, parametrized by
which paths exist on disk at resolution time.  `none` models the `TypeError`
raised by `Path(p)` on a non-string element. -/
def collect_files (image : Option Val) (pathExists : String → Bool) : Option (List String) :=
  match image with
  | none => some []
  | some v =>
    if !pyTruthy v then some []
    else
      let paths : List Val := match v with | .vList xs => xs | w => [w]
      paths.foldr
        (fun p acc =>
          match p, acc with
          | .vStr s, some fs => some (if pathExists s then s :: fs else fs)
          | _, _ => none)
        (some [])


/-! ### Calendar dates and the cycle clock (src/qi_bot/scheduler/loop.py, config.py) -/

/-- A calendar date, mirroring Python `datetime.date`. -/
structure Date where
  year : Nat
  month : Nat
  day : Nat
  deriving Repr

/-- The proleptic-Gregorian leap-year rule used by `datetime`. -/
def isLeap (y : Nat) : Bool :=
  y % 4 == 0 && (y % 100 != 0 || y % 400 == 0)

/-- Days in the months strictly before month `m` of a non-leap year
(CPython `_DAYS_BEFORE_MONTH`). -/
def daysBeforeMonth : Nat → Nat
  | 1 => 0 | 2 => 31 | 3 => 59 | 4 => 90 | 5 => 120 | 6 => 151
  | 7 => 181 | 8 => 212 | 9 => 243 | 10 => 273 | 11 => 304 | 12 => 334
  | _ => 0

/-- CPython `_days_before_year(y)`: days between 0001-01-01 and January 1 of year `y`. -/
def daysBeforeYear (y : Nat) : Nat :=
  365 * (y - 1) + (y - 1) / 4 - (y - 1) / 100 + (y - 1) / 400

/-- Python `date.toordinal()`: proleptic Gregorian ordinal, with 0001-01-01 as day 1. -/
def Date.toordinal (d : Date) : Nat :=
  daysBeforeYear d.year + daysBeforeMonth d.month +
    (if 2 < d.month && isLeap d.year then 1 else 0) + d.day

/-- `settings.CYCLE_START_DATE = date.fromisoformat("2025-10-16")` (src/qi_bot/config.py). -/
def CYCLE_START_DATE : Date := ⟨2025, 10, 16⟩

/-- `settings.CYCLE_LENGTH = 14` (src/qi_bot/config.py). -/
def CYCLE_LENGTH : Int := 14

/-- `settings.SEND_MISSED_WITHIN_MINUTES = 10` (src/qi_bot/config.py). -/
def SEND_MISSED_WITHIN_MINUTES : Int := 10

/-- Python date subtraction `(a - b).days`, via ordinals. -/
def dateDiffDays (a b : Date) : Int :=
  (a.toordinal : Int) - (b.toordinal : Int)

/-- `cycle_day_for` on ordinals.  Python `%` on ints is the mathematical
(floored) modulus, which `Int.emod` matches for a positive modulus. -/
def cycleDayOfOrdinal (o : Int) : Int :=
  (o - (CYCLE_START_DATE.toordinal : Int)) % CYCLE_LENGTH + 1

/-- `cycle_day_for` from src/qi_bot/scheduler/loop.py:
`(d - settings.CYCLE_START_DATE).days % settings.CYCLE_LENGTH + 1`. -/
def cycle_day_for (d : Date) : Int :=
  dateDiffDays d CYCLE_START_DATE % CYCLE_LENGTH + 1

/-! ### The dueness test of the dispatch tick (src/qi_bot/scheduler/loop.py) -/

/-- Microseconds since local midnight of `datetime(today, hh, mm, tzinfo=TZ)`
(`timedelta` arithmetic is exact at microsecond resolution). -/
def scheduledMicros (hh mm : Nat) : Int :=
  ((hh * 60 + mm : Nat) : Int) * 60 * 1000000

/-- The dueness test of the scheduler tick:
`now >= scheduled and (now - scheduled) <= timedelta(minutes=grace)`,
with `now` in microseconds since local midnight of `today`. -/
def eventDue (now : Int) (hh mm : Nat) (graceMinutes : Int) : Bool :=
  decide (scheduledMicros hh mm ≤ now) &&
  decide (now - scheduledMicros hh mm ≤ graceMinutes * 60 * 1000000)


/-! ### The schedule loader's day query (src/qi_bot/schedule/loader.py) -/

/-- Python string comparison `s <= t` on code points (lexicographic). -/
def pyCharsLe : List Char → List Char → Bool
  | [], _ => true
  | _ :: _, [] => false
  | a :: as, b :: bs =>
      decide (a.toNat < b.toNat) || (a.toNat == b.toNat && pyCharsLe as bs)

/-- Python `s <= t` on strings. -/
def pyStrLe (s t : String) : Bool :=
  pyCharsLe s.data t.data

/-- The sort key `e["time"]` of `get_events_for_day`; events are checked to be
dicts with a string `time` before this is used, so the default is unreachable. -/
def timeOf (e : Obj) : String :=
  match dictGet e "time" with
  | some (.vStr t) => t
  | _ => ""

/-- One event of a day's list: the sort's `e["time"]` lookup requires a dict
with a `time` entry; a missing key raises `KeyError` and a non-string time
raises in the mixed-type comparison, both modelled as `none`. -/
def asEventDict (e : Val) : Option Obj :=
  match e with
  | .vDict m =>
    match dictGet m "time" with
    | some (.vStr _) => some m
    | _ => none
  | _ => none

/-- `data.get("days", {})` ready for a `.get` call; `none` models the
`AttributeError` when the `days` entry is not a dict. -/
def getDays (d : Obj) : Option Obj :=
  match dictGet d "days" with
  | none => some []
  | some (.vDict ds) => some ds
  | some _ => none

/-- The pre-sort part of `get_events_for_day`:
`days.get(str(day_number), [])`, unwrapped to the `events` list when the day is
stored as an object (`if isinstance(events, dict): events = events.get("events", [])`),
each event checked usable by the sort key.  `none` models a raised exception
(non-dict `days`, non-list day shape, or an event without a string time). -/
def rawEventsForDay (dayNumber : Int) (data : Obj) : Option (List Obj) :=
  match getDays data with
  | none => none
  | some days =>
    match dictGet days (toString dayNumber) with
    | none => some []
    | some v =>
      match v with
      | .vList xs => xs.mapM asEventDict
      | .vDict m =>
        match dictGet m "events" with
        | none => some []
        | some (.vList xs) => xs.mapM asEventDict
        | some _ => none
      | _ => none

/-- `sorted(events, key=lambda e: e["time"])`: Python's sort is stable, and a
stable sort by a total preorder is extensionally unique, so insertion sort
computes the same list. -/
def sortByTime (evs : List Obj) : List Obj :=
  List.insertionSort (fun a b => pyStrLe (timeOf a) (timeOf b) = true) evs

/-- `get_events_for_day` from src/qi_bot/schedule/loader.py (pure core, the
document already loaded): the day's raw event list sorted by the time string. -/
def get_events_for_day (dayNumber : Int) (data : Obj) : Option (List Obj) :=
  (rawEventsForDay dayNumber data).map sortByTime

/-- The canonical zero-padded digit characters. -/
def digitChar : Nat → Char
  | 0 => '0' | 1 => '1' | 2 => '2' | 3 => '3' | 4 => '4'
  | 5 => '5' | 6 => '6' | 7 => '7' | 8 => '8' | _ => '9'

/-- The characters of a zero-padded `HH:MM` time. -/
def timeChars (h m : Nat) : List Char :=
  [digitChar (h / 10), digitChar (h % 10), ':', digitChar (m / 10), digitChar (m % 10)]

/-- A zero-padded `HH:MM` time string. -/
def timeString (h m : Nat) : String :=
  String.mk (timeChars h m)

/-- Minutes after midnight denoted by an `HH:MM` string (the time-of-day the
spec's ordering speaks about); 0 on a malformed string. -/
def timeMinutes (t : String) : Nat :=
  match t.data with
  | [a, b, _, d, e] =>
      (10 * (a.toNat - 48) + (b.toNat - 48)) * 60 + (10 * (d.toNat - 48) + (e.toNat - 48))
  | _ => 0


/-! ### The dispatch engine send path (src/qi_bot/scheduler/loop.py) -/

/-- Zero-pad a decimal number to a width (as CPython date/strftime printing). -/
def padNat (width n : Nat) : String :=
  let s := toString n
  if s.length < width then String.mk (List.replicate (width - s.length) '0') ++ s else s

/-- `when_dt.date()` as printed by the f-string: ISO `YYYY-MM-DD`. -/
def Date.iso (d : Date) : String :=
  padNat 4 d.year ++ "-" ++ padNat 2 d.month ++ "-" ++ padNat 2 d.day

/-- `when_dt.strftime("%H:%M")`: zero-padded hour and minute. -/
def hhmm (hh mm : Nat) : String :=
  padNat 2 hh ++ ":" ++ padNat 2 mm

/-- The sent-event ledger `_sent_cache`: the in-memory set of sent keys,
cleared on day rollover. -/
structure SchedState where
  sentCache : List String
  deriving Repr, DecidableEq

/-- One call of `channel.send(text, files=files)`. -/
structure SentMsg where
  channelId : Nat
  text : String
  files : List String
  deriving Repr, DecidableEq

/-- The dedup key of `_send_event`:
`f"(channel.id)|(when_dt.date())|(when_dt.strftime(%H:%M))|(idx)"`. -/
def sendEventKey (channelId : Nat) (whenDate : Date) (hh mm : Nat) (idx : Nat) : String :=
  toString channelId ++ "|" ++ whenDate.iso ++ "|" ++ hhmm hh mm ++ "|" ++ toString idx

/-- `(event.get("text") or "")`: absent/falsy text is the empty string; a
truthy non-string raises at `.strip()` (modelled `none`). -/
def pyTextOrEmpty : Option Val → Option String
  | none => some ""
  | some (.vStr s) => some s
  | some v => if pyTruthy v then none else some ""

/-- The part of `_send_event` before the ledger check: resolve the event, then
`text = (event.get("text") or "").strip()` and
`files = collect_files(event.get("image"))`.
`none` models a raised exception escaping `_send_event`. -/
def resolveParts (raw sched : Obj) (pathExists : String → Bool) :
    Option (String × List String) :=
  match resolve_event raw sched with
  | none => none
  | some event =>
    match pyTextOrEmpty (dictGet event "text") with
    | none => none
    | some t =>
      match collect_files (dictGet event "image") pathExists with
      | none => none
      | some fs => some (pyStrip t, fs)

/-- `_send_event` (src/qi_bot/scheduler/loop.py): resolve, then under the
ledger lock return early when the key is already present, otherwise add the
key BEFORE sending; an empty text with no files is skipped after the key was
added; `channel.send` is attempted otherwise and its failure is caught, so the
state does not depend on `sendOk`.  Returns the new state and the messages
handed to `channel.send`. -/
def sendEvent (channelId : Nat) (whenDate : Date) (hh mm : Nat) (raw : Obj) (idx : Nat)
    (sched : Obj) (pathExists : String → Bool) (sendOk : Bool) (st : SchedState) :
    Option (SchedState × List SentMsg) :=
  match resolveParts raw sched pathExists with
  | none => none
  | some (text, files) =>
    if sendEventKey channelId whenDate hh mm idx ∈ st.sentCache then some (st, [])
    else
      let st' : SchedState := ⟨sendEventKey channelId whenDate hh mm idx :: st.sentCache⟩
      if text = "" ∧ files = [] then some (st', [])
      else some (st', [⟨channelId, text, files⟩])

/-- The header line of `_send_preview`. -/
def previewHeader (daynum : Int) (d : Date) (n : Nat) : String :=
  "**Tag " ++ toString daynum ++ " (" ++ d.iso ++ "):** " ++ toString n
    ++ " Schritte geplant.\n"

/-- The `for idx, ev in enumerate(events)` loop of `_send_preview`, each event
sent with `when_dt = datetime(for_date.year, for_date.month, for_date.day, tzinfo=TZ)`,
i.e. midnight (strftime `00:00`). -/
def sendPreviewLoop (channelId : Nat) (forDate : Date) (data : Obj)
    (pathExists : String → Bool) (idx : Nat) (events : List Obj) (st : SchedState) :
    Option (SchedState × List SentMsg) :=
  match events with
  | [] => some (st, [])
  | ev :: rest =>
    match sendEvent channelId forDate 0 0 ev idx data pathExists true st with
    | none => none
    | some (st1, msgs1) =>
      match sendPreviewLoop channelId forDate data pathExists (idx + 1) rest st1 with
      | none => none
      | some (st2, msgs2) => some (st2, msgs1 ++ msgs2)

/-- `_send_preview(channel, for_date)` (src/qi_bot/scheduler/loop.py), used by
`%today` and `%day`: compute the cycle day, fetch that day's events, send a
header (or a no-steps notice), then route every event through `_send_event`. -/
def sendPreview (channelId : Nat) (forDate : Date) (data : Obj)
    (pathExists : String → Bool) (st : SchedState) :
    Option (SchedState × List SentMsg) :=
  match get_events_for_day (cycle_day_for forDate) data with
  | none => none
  | some events =>
    if events.isEmpty then
      some (st, [⟨channelId,
        "**Tag " ++ toString (cycle_day_for forDate) ++ "**: keine Schritte geplant.", []⟩])
    else
      match sendPreviewLoop channelId forDate data pathExists 0 events st with
      | none => none
      | some (st2, msgs) =>
        some (st2, ⟨channelId, previewHeader (cycle_day_for forDate) forDate events.length, []⟩
          :: msgs)


/-! ### The D1 daily snapshot job (src/qi_bot/utils/cloudfare_d1.py) -/

/-- One row of the remote `snapshots` table. -/
structure Snapshot where
  id : Nat
  label : String
  captured_at : String
  deriving Repr, DecidableEq

/-- One row of the remote `player_stats` table (`NULL` as `none`). -/
structure StatsRow where
  snapshot_id : Option Int
  player_id : Option Int
  guild_id : Option Int
  era_nr : Option Int
  points : Option Int
  battles : Option Int
  deriving Repr, DecidableEq

/-- The remote D1 store reached through `d1_query`; each SQL statement is
modelled by its effect on this state.  `nextId` is the autoincrement id the
next `INSERT INTO snapshots` receives. -/
structure D1State where
  snapshots : List Snapshot
  player_stats : List StatsRow
  player_names : List (Int × String)
  guild_names : List (Int × String)
  nextId : Nat
  deriving Repr

/-- One input row of `insert_daily_snapshot` (the `row.get(...)` fields, after
`sql_int`'s int coercion; an absent or `None` field is `none`). -/
structure Row where
  player_id : Option Int
  guild_id : Option Int
  era_nr : Option Int
  points : Option Int
  battles : Option Int
  player_name : Option String
  guild_name : Option String
  deriving Repr

/-- The result dict of `insert_daily_snapshot`; a `skipped` key absent from
the dict reads as `false`. -/
structure SnapResult where
  label : Option String
  snapshot_id : Option Nat
  rows_inserted : Nat
  skipped : Bool
  deriving Repr, DecidableEq

/-- The `if pid and pname` guard of the name upsert (Python truthiness:
a zero id or empty name is skipped). -/
def rowNamePair (pid : Option Int) (pname : Option String) : Option (Int × String) :=
  match pid, pname with
  | some i, some n => if i ≠ 0 ∧ n ≠ "" then some (i, n) else none
  | _, _ => none

/-- `names[int(pid)] = str(pname)` over all rows: a Python dict build,
last assignment winning, first-assignment order kept. -/
def upsertAssoc (l : List (Int × String)) (i : Int) (n : String) : List (Int × String) :=
  match l with
  | [] => [(i, n)]
  | (i', n') :: rest => if i' = i then (i', n) :: rest else (i', n') :: upsertAssoc rest i n

/-- Collect the name mapping of all rows. -/
def namesOfRows (f : Row → Option (Int × String)) (rows : List Row) :
    List (Int × String) :=
  rows.foldl (fun acc r => match f r with | some (i, n) => upsertAssoc acc i n | none => acc) []

/-- `INSERT OR IGNORE INTO ..._names`: append the entries whose key is absent,
never rewriting an existing mapping. -/
def insertIgnore (store entries : List (Int × String)) : List (Int × String) :=
  entries.foldl (fun acc p => if (acc.lookup p.1).isSome then acc else acc ++ [p]) store

/-- `SELECT id, label, captured_at FROM snapshots WHERE substr(captured_at,1,10) = ?
ORDER BY captured_at ASC LIMIT 1` for today's date. -/
def todaysSnapshot (snaps : List Snapshot) (todayStr : String) : Option Snapshot :=
  (List.insertionSort (fun a b => pyStrLe a.captured_at b.captured_at = true)
    (snaps.filter (fun s => s.captured_at.take 10 == todayStr))).head?

/-- `insert_daily_snapshot(rows)` (src/qi_bot/utils/cloudfare_d1.py):
empty input is a no-op result; name mappings are always upserted; when a
snapshot captured today already exists, report it with `rows_inserted = 0,
skipped = true` and insert nothing; otherwise create the snapshot row
(label `daily_data_(timestamp)`), read its id back by label, and batch-insert
all player rows (the batches sum to the whole list). -/
def insert_daily_snapshot (rows : List Row) (todayStr tsLabel nowIso : String)
    (st : D1State) : SnapResult × D1State :=
  if rows.isEmpty then (⟨none, none, 0, false⟩, st)
  else
    let pn := namesOfRows (fun r => rowNamePair r.player_id r.player_name) rows
    let gn := namesOfRows (fun r => rowNamePair r.guild_id r.guild_name) rows
    let st1 : D1State := { st with
      player_names := insertIgnore st.player_names pn,
      guild_names := insertIgnore st.guild_names gn }
    match todaysSnapshot st1.snapshots todayStr with
    | some snap => (⟨some snap.label, some snap.id, 0, true⟩, st1)
    | none =>
      let label := "daily_data_" ++ tsLabel
      let snaps2 := st1.snapshots ++ [⟨st1.nextId, label, nowIso⟩]
      let sid := ((snaps2.filter (fun s => s.label == label)).head?).map Snapshot.id
      let stats := rows.map (fun r =>
        StatsRow.mk (sid.map Int.ofNat) r.player_id r.guild_id r.era_nr r.points r.battles)
      (⟨some label, sid, rows.length, false⟩,
       { st1 with
          snapshots := snaps2,
          player_stats := st1.player_stats ++ stats,
          nextId := st1.nextId + 1 })

end QiBot

namespace QiBot

/-! ### Generic dictionary lemmas -/

theorem dictGet_erase (o : Obj) (k k' : String) :
    dictGet (dictErase o k) k' = if k = k' then none else dictGet o k' := by
  induction o with
  | nil => simp [dictErase, dictGet]
  | cons p rest ih =>
    obtain ⟨k1, v1⟩ := p
    simp only [dictErase, dictGet]
    by_cases h1 : k1 = k <;> by_cases h2 : k = k' <;> simp_all [dictGet]

theorem dictGet_set (o : Obj) (k : String) (v : Val) (k' : String) :
    dictGet (dictSet o k v) k' = if k = k' then some v else dictGet o k' := by
  induction o with
  | nil => simp [dictSet, dictGet]
  | cons p rest ih =>
    obtain ⟨k1, v1⟩ := p
    simp only [dictSet, dictGet]
    by_cases h1 : k1 = k <;> by_cases h2 : k = k' <;> simp_all [dictGet]

theorem dictErase_erase (o : Obj) (k : String) :
    dictErase (dictErase o k) k = dictErase o k := by
  induction o with
  | nil => rfl
  | cons p rest ih =>
    obtain ⟨k1, v1⟩ := p
    simp only [dictErase]
    by_cases h1 : k1 = k <;> simp_all [dictErase]

theorem dictGet_eq_none_of_not_mem (o : Obj) (k : String) (h : k ∉ o.map Prod.fst) :
    dictGet o k = none := by
  induction o with
  | nil => rfl
  | cons p rest ih =>
    obtain ⟨k1, v1⟩ := p
    simp_all [dictGet]
    intro h'; simp_all

theorem isSome_dictGet_update (b o : Obj) (k : String) :
    (dictGet (dictUpdate b o) k).isSome
      = ((dictGet o k).isSome || (dictGet b k).isSome) := by
  induction o generalizing b with
  | nil => simp [dictUpdate, dictGet]
  | cons p rest ih =>
    obtain ⟨k1, v1⟩ := p
    show (dictGet (dictUpdate (dictSet b k1 v1) rest) k).isSome = _
    rw [ih]
    simp only [dictGet, dictGet_set]
    by_cases h1 : k1 = k <;> simp_all

theorem dictGet_update_nodup (b o : Obj) (h : (o.map Prod.fst).Nodup) (k : String) :
    dictGet (dictUpdate b o) k = (dictGet o k).or (dictGet b k) := by
  induction o generalizing b with
  | nil => simp [dictUpdate, dictGet]
  | cons p rest ih =>
    obtain ⟨k1, v1⟩ := p
    simp only [List.map, List.nodup_cons] at h
    show dictGet (dictUpdate (dictSet b k1 v1) rest) k = _
    rw [ih _ h.2]
    simp only [dictGet, dictGet_set]
    by_cases h1 : k1 = k
    · subst h1
      rw [dictGet_eq_none_of_not_mem rest k1 h.1]
      simp
    · simp [h1]

/-! ### Structure of the resolver steps -/

theorem dictGet_varsStep_vars (x : Obj) : dictGet (varsStep x) "vars" = none := by
  unfold varsStep
  split
  · split
    · split
      · rw [dictGet_set]
        simp [dictGet_erase]
      · rw [dictGet_erase]; simp
    · rw [dictGet_erase]; simp
  · rw [dictGet_erase]; simp

theorem dictGet_varsStep_ne (x : Obj) (k : String) (h1 : k ≠ "vars") (h2 : k ≠ "text") :
    dictGet (varsStep x) k = dictGet x k := by
  unfold varsStep
  split
  · split
    · split
      · rw [dictGet_set, dictGet_erase]
        simp [Ne.symm h1, Ne.symm h2]
      · rw [dictGet_erase]; simp [Ne.symm h1]
    · rw [dictGet_erase]; simp [Ne.symm h1]
  · rw [dictGet_erase]; simp [Ne.symm h1]

theorem dictGet_imageStep_ne (x : Obj) (k : String) (h : k ≠ "image") :
    dictGet (imageStep x) k = dictGet x k := by
  unfold imageStep
  split
  · rw [dictGet_erase]; simp [Ne.symm h]
  · rfl

theorem mergeStep_inv (event sched o₀ : Obj) (h : mergeStep event sched = some o₀) :
    o₀ = dictErase event "use" ∨
    ∃ s ts tmpl, dictGet event "use" = some (.vStr s) ∧ getTemplates sched = some ts ∧
      dictGet ts s = some (.vDict tmpl) ∧ o₀ = dictUpdate tmpl (dictErase event "use") := by
  unfold mergeStep at h
  cases hu : dictGet event "use" <;> rw [hu] at h <;> try dsimp only at h
  · exact Or.inl (Option.some.inj h).symm
  · rename_i u
    by_cases ht : pyTruthy u
    · rw [if_pos ht] at h
      cases u <;> try dsimp only at h
      · exact Or.inl (Option.some.inj h).symm
      · exact Or.inl (Option.some.inj h).symm
      · exact Or.inl (Option.some.inj h).symm
      · rename_i s
        cases hts : getTemplates sched <;> rw [hts] at h <;> try dsimp only at h
        · exact absurd h (by simp)
        · rename_i ts
          cases hg : dictGet ts s <;> rw [hg] at h <;> try dsimp only at h
          · exact Or.inl (Option.some.inj h).symm
          · rename_i v
            cases v <;> try dsimp only at h
            · (try split at h) <;>
                first
                  | exact Or.inl (Option.some.inj h).symm
                  | exact absurd h (by simp)
            · (try split at h) <;>
                first
                  | exact Or.inl (Option.some.inj h).symm
                  | exact absurd h (by simp)
            · (try split at h) <;>
                first
                  | exact Or.inl (Option.some.inj h).symm
                  | exact absurd h (by simp)
            · (try split at h) <;>
                first
                  | exact Or.inl (Option.some.inj h).symm
                  | exact absurd h (by simp)
            · (try split at h) <;>
                first
                  | exact Or.inl (Option.some.inj h).symm
                  | exact absurd h (by simp)
            · rename_i tmpl
              by_cases htt : pyTruthy (Val.vDict tmpl)
              · rw [if_pos htt] at h
                exact Or.inr ⟨s, ts, tmpl, rfl, rfl, hg, (Option.some.inj h).symm⟩
              · rw [if_neg htt] at h
                exact Or.inl (Option.some.inj h).symm
      · exact absurd h (by simp)
      · exact absurd h (by simp)
    · rw [if_neg ht] at h
      exact Or.inl (Option.some.inj h).symm

/-! ### Claims C6, C7, C8 -/

theorem isEmpty_false_of_ne (s : String) (h : s ≠ "") : s.isEmpty = false := by
  cases he : s.isEmpty
  · rfl
  · exact absurd ((String.isEmpty_iff s).mp he) h

theorem mergeStep_known (event sched ts tmpl : Obj) (s : String)
    (hu : dictGet event "use" = some (.vStr s)) (hs : s ≠ "")
    (hts : getTemplates sched = some ts)
    (hg : dictGet ts s = some (.vDict tmpl)) (htm : tmpl ≠ []) :
    mergeStep event sched = some (dictUpdate tmpl (dictErase event "use")) := by
  have h1 : pyTruthy (.vStr s) = true := by
    simp [pyTruthy, isEmpty_false_of_ne s hs]
  have h2 : pyTruthy (.vDict tmpl) = true := by
    simp [pyTruthy, htm]
  unfold mergeStep
  rw [hu]
  dsimp only
  rw [if_pos h1, hts]
  dsimp only
  rw [hg]
  dsimp only
  rw [if_pos h2]

theorem mergeStep_unknown (event sched ts : Obj) (s : String)
    (hu : dictGet event "use" = some (.vStr s))
    (hts : getTemplates sched = some ts)
    (hg : dictGet ts s = none) :
    mergeStep event sched = some (dictErase event "use") := by
  unfold mergeStep
  rw [hu]
  dsimp only
  by_cases hs : s = ""
  · subst hs
    rw [if_neg (by decide : ¬ pyTruthy (Val.vStr "") = true)]
  · have h1 : pyTruthy (.vStr s) = true := by
      simp [pyTruthy, isEmpty_false_of_ne s hs]
    rw [if_pos h1, hts]
    dsimp only
    rw [hg]

theorem mergeStep_no_use (event sched : Obj) (hu : dictGet event "use" = none) :
    mergeStep event sched = some (dictErase event "use") := by
  unfold mergeStep
  rw [hu]

/-- C6: when `use` names a template present in the document's templates map,
`resolve_event` overlays the template's fields first and then the event's own
fields, the event winning on conflicts; a `use` naming an unknown template
behaves exactly as if `use` were absent, with no error; on the spec's example
(template `(text: A, image: x.png)`, event `(use: T, text: B)`), the result
has `text = B` and `image = x.png`. -/
theorem C6_template_merge :
    (∀ (event sched ts tmpl : Obj) (s : String),
        dictGet event "use" = some (.vStr s) → s ≠ "" →
        getTemplates sched = some ts →
        dictGet ts s = some (.vDict tmpl) → tmpl ≠ [] →
        resolve_event event sched =
          some (varsStep (imageStep (dictUpdate tmpl (dictErase event "use")))) ∧
        (((dictErase event "use").map Prod.fst).Nodup →
          ∀ k, dictGet (dictUpdate tmpl (dictErase event "use")) k =
            (dictGet (dictErase event "use") k).or (dictGet tmpl k))) ∧
    (∀ (event sched ts : Obj) (s : String),
        dictGet event "use" = some (.vStr s) →
        getTemplates sched = some ts → dictGet ts s = none →
        resolve_event event sched = resolve_event (dictErase event "use") sched) ∧
    resolve_event [("use", .vStr "T"), ("text", .vStr "B")]
        [("templates", .vDict [("T", .vDict [("text", .vStr "A"), ("image", .vStr "x.png")])])]
      = some [("text", .vStr "B"), ("image", .vStr "x.png")] := by
  refine ⟨?_, ?_, rfl⟩
  · intro event sched ts tmpl s hu hs hts hg htm
    constructor
    · unfold resolve_event
      rw [mergeStep_known event sched ts tmpl s hu hs hts hg htm]
      rfl
    · intro hnd k
      exact dictGet_update_nodup tmpl (dictErase event "use") hnd k
  · intro event sched ts s hu hts hg
    unfold resolve_event
    rw [mergeStep_unknown event sched ts s hu hts hg,
        mergeStep_no_use (dictErase event "use") sched
          (by rw [dictGet_erase]; simp),
        dictErase_erase]

theorem C6_witness :
    resolve_event [("use", .vStr "T"), ("text", .vStr "B")]
        [("templates", .vDict [("T", .vDict [("text", .vStr "A"), ("image", .vStr "x.png")])])]
      = some (varsStep (imageStep (dictUpdate [("text", .vStr "A"), ("image", .vStr "x.png")]
          (dictErase [("use", .vStr "T"), ("text", .vStr "B")] "use")))) :=
  (C6_template_merge.1 [("use", .vStr "T"), ("text", .vStr "B")]
    [("templates", .vDict [("T", .vDict [("text", .vStr "A"), ("image", .vStr "x.png")])])]
    [("T", .vDict [("text", .vStr "A"), ("image", .vStr "x.png")])]
    [("text", .vStr "A"), ("image", .vStr "x.png")] "T"
    rfl (by decide) rfl rfl (by simp)).1

/-- C7: variable substitution fills placeholders from `vars`
(`Hello (name)` with `name = Qi` gives `Hello Qi`); any substitution failure,
e.g. a missing key, keeps the original text unchanged with no error
(`Hello (missing)` with empty vars stays `Hello (missing)`); in general a
failing format keeps the text and a succeeding one replaces it. -/
theorem C7_vars_substitution :
    resolve_event [("text", .vStr "Hello \x7bname\x7d"), ("vars", .vDict [("name", .vStr "Qi")])] []
      = some [("text", .vStr "Hello Qi")] ∧
    resolve_event [("text", .vStr "Hello \x7bmissing\x7d"), ("vars", .vDict [])] []
      = some [("text", .vStr "Hello \x7bmissing\x7d")] ∧
    (∀ (out vs : Obj) (t : String),
        dictGet out "vars" = some (.vDict vs) →
        dictGet (dictErase out "vars") "text" = some (.vStr t) →
        (pyFormat t vs = none → varsStep out = dictErase out "vars") ∧
        (∀ t2, pyFormat t vs = some t2 →
          varsStep out = dictSet (dictErase out "vars") "text" (.vStr t2))) := by
  refine ⟨rfl, rfl, ?_⟩
  intro out vs t hv ht
  constructor
  · intro hfmt
    unfold varsStep
    rw [hv]
    dsimp only
    rw [ht]
    dsimp only
    rw [hfmt]
  · intro t2 hfmt
    unfold varsStep
    rw [hv]
    dsimp only
    rw [ht]
    dsimp only
    rw [hfmt]

theorem C7_witness :
    varsStep [("text", .vStr "Hello \x7bmissing\x7d"), ("vars", .vDict [])]
      = dictErase [("text", .vStr "Hello \x7bmissing\x7d"), ("vars", .vDict [])] "vars" :=
  ((C7_vars_substitution.2.2 [("text", .vStr "Hello \x7bmissing\x7d"), ("vars", .vDict [])]
    [] "Hello \x7bmissing\x7d" rfl rfl).1) rfl

/-- C8 counterexample: when the applied template itself carries a `use` field,
the resolved event still contains a `use` key, contradicting the claim that
`use` never appears in the resolved event. -/
theorem C8_counterexample :
    (resolve_event [("use", .vStr "T")]
        [("templates", .vDict [("T", .vDict [("use", .vStr "X"), ("text", .vStr "A")])])]).map
      (fun o => dictContains o "use") = some true := rfl

/-- C8 (amended): the resolved event never contains a `vars` key; it contains a
`use` key only when the event's `use` named a template that itself carries a
`use` field (the template's own `use` is not consumed). -/
theorem C8_vars_use_consumed :
    ∀ (event sched r : Obj), resolve_event event sched = some r →
      dictGet r "vars" = none ∧
      (dictContains r "use" = true →
        ∃ s ts tmpl, dictGet event "use" = some (.vStr s) ∧ getTemplates sched = some ts ∧
          dictGet ts s = some (.vDict tmpl) ∧ dictContains tmpl "use" = true) := by
  intro event sched r h
  unfold resolve_event at h
  cases hm : mergeStep event sched <;> rw [hm] at h
  · exact absurd h (by simp)
  rename_i o₀
  have hr : r = varsStep (imageStep o₀) := (Option.some.inj (by simpa using h)).symm
  constructor
  · rw [hr]
    exact dictGet_varsStep_vars _
  · intro hcu
    have huse : dictGet r "use" = dictGet o₀ "use" := by
      rw [hr, dictGet_varsStep_ne _ _ (by decide) (by decide),
          dictGet_imageStep_ne _ _ (by decide)]
    rcases mergeStep_inv event sched o₀ hm with h0 | ⟨s, ts, tmpl, hu, hts, hg, h0⟩
    · exfalso
      rw [dictContains, huse, h0, dictGet_erase] at hcu
      simp at hcu
    · refine ⟨s, ts, tmpl, hu, hts, hg, ?_⟩
      rw [dictContains, huse, h0] at hcu
      rw [isSome_dictGet_update, dictGet_erase] at hcu
      simpa [dictContains] using hcu

theorem C8_witness :
    dictGet (varsStep (imageStep (dictErase [("use", .vNull), ("vars", .vDict []),
        ("text", .vStr "hi")] "use"))) "vars" = none :=
  (C8_vars_use_consumed [("use", .vNull), ("vars", .vDict []), ("text", .vStr "hi")] []
    (varsStep (imageStep (dictErase [("use", .vNull), ("vars", .vDict []),
      ("text", .vStr "hi")] "use"))) rfl).1

/-! ### Claims C2 and C3 -/

/-- C2: `cycle_day_for d` is `((d - start_date).days mod length) + 1` with a true
mathematical mod, always lies in `[1, length]` (also for dates before the start
date), is periodic with period `length` days, and with the configured start date
2025-10-16 and length 14 both 2025-10-16 and 2025-10-30 give day 1. -/
theorem C2_cycle_day :
    (∀ d : Date, cycle_day_for d = cycleDayOfOrdinal d.toordinal ∧
      cycle_day_for d =
        ((d.toordinal : Int) - (CYCLE_START_DATE.toordinal : Int)) % CYCLE_LENGTH + 1) ∧
    (∀ d : Date, 1 ≤ cycle_day_for d ∧ cycle_day_for d ≤ CYCLE_LENGTH) ∧
    (∀ o : Int, cycleDayOfOrdinal (o + CYCLE_LENGTH) = cycleDayOfOrdinal o) ∧
    (∀ d d' : Date, (d'.toordinal : Int) = (d.toordinal : Int) + CYCLE_LENGTH →
      cycle_day_for d' = cycle_day_for d) ∧
    cycle_day_for ⟨2025, 10, 16⟩ = 1 ∧ cycle_day_for ⟨2025, 10, 30⟩ = 1 := by
  have hchar : ∀ d : Date, cycle_day_for d = cycleDayOfOrdinal d.toordinal := by
    intro d; rfl
  have hper : ∀ o : Int, cycleDayOfOrdinal (o + CYCLE_LENGTH) = cycleDayOfOrdinal o := by
    intro o
    unfold cycleDayOfOrdinal CYCLE_LENGTH
    rw [show o + 14 - (CYCLE_START_DATE.toordinal : Int)
          = (o - (CYCLE_START_DATE.toordinal : Int)) + 14 * 1 by ring,
        Int.add_mul_emod_self_left]
  refine ⟨fun d => ⟨hchar d, rfl⟩, ?_, hper, ?_, by decide, by decide⟩
  · intro d
    unfold cycle_day_for CYCLE_LENGTH dateDiffDays
    have h1 := Int.emod_nonneg ((d.toordinal : Int) - (CYCLE_START_DATE.toordinal : Int))
      (by norm_num : (14 : Int) ≠ 0)
    have h2 := Int.emod_lt_of_pos ((d.toordinal : Int) - (CYCLE_START_DATE.toordinal : Int))
      (by norm_num : (0 : Int) < 14)
    omega
  · intro d d' h
    rw [hchar, hchar, ← hper d.toordinal]
    unfold cycleDayOfOrdinal
    rw [h]

theorem C2_witness :
    cycle_day_for ⟨2025, 10, 30⟩ = cycle_day_for ⟨2025, 10, 16⟩ :=
  C2_cycle_day.2.2.2.1 ⟨2025, 10, 16⟩ ⟨2025, 10, 30⟩ (by decide)

/-- C3: with the default 10-minute grace window, an event at `hh:mm` is judged
due at instant `now` iff `now ≥ scheduled` and `now - scheduled ≤ 10` minutes;
an event at 10:00 is due at exactly 10:00 and at exactly 10:10, and not due at
10:11 or any later instant. -/
theorem C3_grace_window :
    (∀ (now : Int) (hh mm : Nat),
        eventDue now hh mm SEND_MISSED_WITHIN_MINUTES = true ↔
          scheduledMicros hh mm ≤ now ∧
            now - scheduledMicros hh mm ≤ 10 * 60 * 1000000) ∧
    eventDue (scheduledMicros 10 0) 10 0 SEND_MISSED_WITHIN_MINUTES = true ∧
    eventDue (scheduledMicros 10 10) 10 0 SEND_MISSED_WITHIN_MINUTES = true ∧
    (∀ now : Int, scheduledMicros 10 11 ≤ now →
        eventDue now 10 0 SEND_MISSED_WITHIN_MINUTES = false) := by
  refine ⟨?_, by decide, by decide, ?_⟩
  · intro now hh mm
    unfold eventDue SEND_MISSED_WITHIN_MINUTES
    simp
  · intro now h
    unfold eventDue SEND_MISSED_WITHIN_MINUTES
    unfold scheduledMicros at h ⊢
    simp only [Bool.and_eq_false_iff, decide_eq_false_iff_not]
    norm_num at h ⊢
    omega

theorem C3_witness :
    eventDue (scheduledMicros 10 11) 10 0 SEND_MISSED_WITHIN_MINUTES = false :=
  C3_grace_window.2.2.2 (scheduledMicros 10 11) (by decide)

/-! ### Claim C5: day events sorted stably by time -/

theorem digitChar_toNat (x : Nat) (hx : x < 10) : (digitChar x).toNat = 48 + x := by
  interval_cases x <;> decide

theorem pyCharsLe_refl : ∀ s, pyCharsLe s s = true := by
  intro s
  induction s with
  | nil => rfl
  | cons a as ih => simp [pyCharsLe, ih]

theorem pyCharsLe_total : ∀ s t, pyCharsLe s t = true ∨ pyCharsLe t s = true := by
  intro s
  induction s with
  | nil => intro t; exact Or.inl rfl
  | cons a as ih =>
    intro t
    cases t with
    | nil => exact Or.inr rfl
    | cons b bs =>
      simp only [pyCharsLe, Bool.or_eq_true, Bool.and_eq_true, decide_eq_true_eq, beq_iff_eq]
      rcases Nat.lt_trichotomy a.toNat b.toNat with h | h | h
      · exact Or.inl (Or.inl h)
      · rcases ih bs with h2 | h2
        · exact Or.inl (Or.inr ⟨h, h2⟩)
        · exact Or.inr (Or.inr ⟨h.symm, h2⟩)
      · exact Or.inr (Or.inl h)

theorem pyCharsLe_trans :
    ∀ s t u, pyCharsLe s t = true → pyCharsLe t u = true → pyCharsLe s u = true := by
  intro s
  induction s with
  | nil => intro t u _ _; rfl
  | cons a as ih =>
    intro t u h1 h2
    cases t with
    | nil => exact absurd h1 (by simp [pyCharsLe])
    | cons b bs =>
      cases u with
      | nil => exact absurd h2 (by simp [pyCharsLe])
      | cons c cs =>
        simp only [pyCharsLe, Bool.or_eq_true, Bool.and_eq_true, decide_eq_true_eq,
          beq_iff_eq] at h1 h2 ⊢
        rcases h1 with h1 | ⟨h1e, h1t⟩
        · rcases h2 with h2 | ⟨h2e, h2t⟩
          · exact Or.inl (Nat.lt_trans h1 h2)
          · exact Or.inl (h2e ▸ h1)
        · rcases h2 with h2 | ⟨h2e, h2t⟩
          · exact Or.inl (h1e ▸ h2)
          · exact Or.inr ⟨h1e.trans h2e, ih bs cs h1t h2t⟩

theorem pyStrLe_refl (s : String) : pyStrLe s s = true :=
  pyCharsLe_refl s.data

theorem pyCharsLe_timeChars (h1 m1 h2 m2 : Nat)
    (hh1 : h1 < 24) (hm1 : m1 < 60) (hh2 : h2 < 24) (hm2 : m2 < 60) :
    pyCharsLe (timeChars h1 m1) (timeChars h2 m2)
      = decide (h1 * 60 + m1 ≤ h2 * 60 + m2) := by
  simp only [timeChars, pyCharsLe]
  rw [digitChar_toNat (h1 / 10) (by omega), digitChar_toNat (h1 % 10) (by omega),
      digitChar_toNat (m1 / 10) (by omega), digitChar_toNat (m1 % 10) (by omega),
      digitChar_toNat (h2 / 10) (by omega), digitChar_toNat (h2 % 10) (by omega),
      digitChar_toNat (m2 / 10) (by omega), digitChar_toNat (m2 % 10) (by omega)]
  rw [Bool.eq_iff_iff]
  simp only [Bool.or_eq_true, Bool.and_eq_true, decide_eq_true_eq, beq_iff_eq]
  have hc : ':'.toNat = 58 := rfl
  rw [hc]
  constructor
  · rintro (h | ⟨he1, h | ⟨he2, h | ⟨-, h | ⟨he3, h | ⟨he4, -⟩⟩⟩⟩⟩) <;> omega
  · intro hle
    rcases Nat.lt_trichotomy (h1 / 10) (h2 / 10) with h | h | h
    · exact Or.inl (by omega)
    · rcases Nat.lt_trichotomy (h1 % 10) (h2 % 10) with h' | h' | h'
      · exact Or.inr ⟨by omega, Or.inl (by omega)⟩
      · rcases Nat.lt_trichotomy (m1 / 10) (m2 / 10) with h2' | h2' | h2'
        · exact Or.inr ⟨by omega, Or.inr ⟨by omega, Or.inr ⟨trivial, Or.inl (by omega)⟩⟩⟩
        · rcases Nat.lt_trichotomy (m1 % 10) (m2 % 10) with h3 | h3 | h3
          · exact Or.inr ⟨by omega, Or.inr ⟨by omega, Or.inr ⟨trivial,
              Or.inr ⟨by omega, Or.inl (by omega)⟩⟩⟩⟩
          · exact Or.inr ⟨by omega, Or.inr ⟨by omega, Or.inr ⟨trivial,
              Or.inr ⟨by omega, Or.inr ⟨by omega, trivial⟩⟩⟩⟩⟩
          · exact absurd hle (by omega)
        · exact absurd hle (by omega)
      · exact absurd hle (by omega)
    · exact absurd hle (by omega)

theorem timeMinutes_timeString (h m : Nat) (hh : h < 24) (hm : m < 60) :
    timeMinutes (timeString h m) = h * 60 + m := by
  simp only [timeString, timeChars, timeMinutes]
  rw [digitChar_toNat (h / 10) (by omega), digitChar_toNat (h % 10) (by omega),
      digitChar_toNat (m / 10) (by omega), digitChar_toNat (m % 10) (by omega)]
  omega

theorem filter_time_orderedInsert (k : String) (x : Obj) (l : List Obj) :
    (List.orderedInsert (fun a b => pyStrLe (timeOf a) (timeOf b) = true) x l).filter
        (fun e => timeOf e == k)
      = ((x :: l).filter (fun e => timeOf e == k)) := by
  induction l with
  | nil => rfl
  | cons y ys ih =>
    simp only [List.orderedInsert]
    by_cases hr : pyStrLe (timeOf x) (timeOf y) = true
    · rw [if_pos hr]
    · rw [if_neg hr]
      have hne : timeOf y ≠ timeOf x := by
        intro he
        apply hr
        rw [he]
        exact pyStrLe_refl (timeOf x)
      cases hpx : (timeOf x == k) <;> cases hpy : (timeOf y == k)
      · simp [List.filter_cons, hpx, hpy, ih]
      · simp [List.filter_cons, hpx, hpy, ih]
      · simp [List.filter_cons, hpx, hpy, ih]
      · exact absurd ((beq_iff_eq.mp hpy).trans (beq_iff_eq.mp hpx).symm) hne

theorem filter_time_insertionSort (k : String) (l : List Obj) :
    (sortByTime l).filter (fun e => timeOf e == k) = l.filter (fun e => timeOf e == k) := by
  induction l with
  | nil => rfl
  | cons x xs ih =>
    show (List.orderedInsert _ x (List.insertionSort _ xs)).filter _ = _
    rw [filter_time_orderedInsert]
    simp only [sortByTime] at ih
    simp only [List.filter_cons]
    cases hpx : (timeOf x == k) <;> simp [hpx, ih]

/-- C5: for every day number and schedule document (bare-list or object day
shape), `get_events_for_day` returns that day's events sorted ascending by
time-of-day with a stable sort: the result is the stable time-key sort of the
raw day list — a permutation of it that preserves the relative order of
equal-time events — and, whenever all time strings are well-formed zero-padded
`HH:MM` values (the spec's `RawEvent.time` format), it is pairwise ordered by
minutes after midnight. -/
theorem C5_events_sorted :
    ∀ (day : Int) (data : Obj) (raw : List Obj),
      rawEventsForDay day data = some raw →
      get_events_for_day day data = some (sortByTime raw) ∧
      (sortByTime raw).Perm raw ∧
      (∀ k, (sortByTime raw).filter (fun e => timeOf e == k)
            = raw.filter (fun e => timeOf e == k)) ∧
      ((∀ e ∈ raw, ∃ h m, h < 24 ∧ m < 60 ∧ timeOf e = timeString h m) →
        (sortByTime raw).Pairwise
          (fun a b => timeMinutes (timeOf a) ≤ timeMinutes (timeOf b))) := by
  intro day data raw hraw
  refine ⟨by rw [get_events_for_day, hraw]; rfl,
    List.perm_insertionSort _ raw,
    fun k => filter_time_insertionSort k raw, ?_⟩
  intro hwf
  haveI htot : IsTotal Obj (fun a b => pyStrLe (timeOf a) (timeOf b) = true) :=
    ⟨fun a b => pyCharsLe_total (timeOf a).data (timeOf b).data⟩
  haveI htrans : IsTrans Obj (fun a b => pyStrLe (timeOf a) (timeOf b) = true) :=
    ⟨fun a b c => pyCharsLe_trans (timeOf a).data (timeOf b).data (timeOf c).data⟩
  have hsorted := List.sorted_insertionSort
    (fun a b => pyStrLe (timeOf a) (timeOf b) = true) raw
  refine List.Pairwise.imp_of_mem ?_ hsorted
  intro a b ha hb hab
  have ha' := (List.mem_insertionSort _).mp ha
  have hb' := (List.mem_insertionSort _).mp hb
  obtain ⟨h1, m1, hh1, hm1, he1⟩ := hwf a ha'
  obtain ⟨h2, m2, hh2, hm2, he2⟩ := hwf b hb'
  rw [he1, he2, timeMinutes_timeString h1 m1 hh1 hm1, timeMinutes_timeString h2 m2 hh2 hm2]
  have : pyCharsLe (timeChars h1 m1) (timeChars h2 m2) = true := by
    rw [he1, he2] at hab
    exact hab
  rw [pyCharsLe_timeChars h1 m1 h2 m2 hh1 hm1 hh2 hm2] at this
  exact of_decide_eq_true this

theorem C5_witness :
    get_events_for_day 3 [("days", .vDict [("3", .vList
        [.vDict [("time", .vStr "10:00"), ("text", .vStr "b")],
         .vDict [("time", .vStr "09:00"), ("text", .vStr "a")]])])]
      = some (sortByTime
        [[("time", .vStr "10:00"), ("text", .vStr "b")],
         [("time", .vStr "09:00"), ("text", .vStr "a")]]) ∧
    (sortByTime
        [[("time", .vStr "10:00"), ("text", .vStr "b")],
         [("time", .vStr "09:00"), ("text", .vStr "a")]]).Pairwise
      (fun a b => timeMinutes (timeOf a) ≤ timeMinutes (timeOf b)) := by
  have h := C5_events_sorted 3
    [("days", .vDict [("3", .vList
        [.vDict [("time", .vStr "10:00"), ("text", .vStr "b")],
         .vDict [("time", .vStr "09:00"), ("text", .vStr "a")]])])]
    [[("time", .vStr "10:00"), ("text", .vStr "b")],
     [("time", .vStr "09:00"), ("text", .vStr "a")]] rfl
  refine ⟨h.1, h.2.2.2 ?_⟩
  intro e he
  simp only [List.mem_cons, List.not_mem_nil, or_false] at he
  rcases he with he | he
  · exact ⟨10, 0, by omega, by omega, by rw [he]; rfl⟩
  · exact ⟨9, 0, by omega, by omega, by rw [he]; rfl⟩

/-! ### Claims C1, C4, C10: the sent-event ledger -/

theorem sendEvent_inv (ch : Nat) (d : Date) (hh mm : Nat) (raw : Obj) (idx : Nat)
    (sched : Obj) (ex : String → Bool) (ok : Bool) (st st' : SchedState)
    (msgs : List SentMsg)
    (h : sendEvent ch d hh mm raw idx sched ex ok st = some (st', msgs)) :
    (resolveParts raw sched ex).isSome ∧
    ((sendEventKey ch d hh mm idx ∈ st.sentCache ∧ st' = st ∧ msgs = []) ∨
     (sendEventKey ch d hh mm idx ∉ st.sentCache ∧
       st' = ⟨sendEventKey ch d hh mm idx :: st.sentCache⟩)) := by
  unfold sendEvent at h
  cases hr : resolveParts raw sched ex <;> rw [hr] at h <;> try dsimp only at h
  · exact absurd h (by simp)
  · rename_i parts
    obtain ⟨text, files⟩ := parts
    refine ⟨rfl, ?_⟩
    by_cases hk : sendEventKey ch d hh mm idx ∈ st.sentCache
    · rw [if_pos hk] at h
      simp only [Option.some.injEq, Prod.mk.injEq] at h
      exact Or.inl ⟨hk, h.1.symm, h.2.symm⟩
    · rw [if_neg hk] at h
      dsimp only at h
      refine Or.inr ⟨hk, ?_⟩
      by_cases he : text = "" ∧ files = []
      · rw [if_pos he] at h
        simp only [Option.some.injEq, Prod.mk.injEq] at h
        exact h.1.symm
      · rw [if_neg he] at h
        simp only [Option.some.injEq, Prod.mk.injEq] at h
        exact h.1.symm

theorem sendEvent_mem (ch : Nat) (d : Date) (hh mm : Nat) (raw : Obj) (idx : Nat)
    (sched : Obj) (ex : String → Bool) (ok : Bool) (st st' : SchedState)
    (msgs : List SentMsg)
    (h : sendEvent ch d hh mm raw idx sched ex ok st = some (st', msgs)) :
    sendEventKey ch d hh mm idx ∈ st'.sentCache ∧
    ∀ k ∈ st.sentCache, k ∈ st'.sentCache := by
  rcases (sendEvent_inv ch d hh mm raw idx sched ex ok st st' msgs h).2 with
    ⟨hk, hst, -⟩ | ⟨hk, hst⟩
  · exact ⟨hst ▸ hk, fun k hkm => hst ▸ hkm⟩
  · subst hst
    exact ⟨List.mem_cons_self _ _, fun k hkm => List.mem_cons_of_mem _ hkm⟩

theorem sendEvent_skip (ch : Nat) (d : Date) (hh mm : Nat) (raw : Obj) (idx : Nat)
    (sched : Obj) (ex : String → Bool) (ok : Bool) (st : SchedState)
    (hres : (resolveParts raw sched ex).isSome)
    (hk : sendEventKey ch d hh mm idx ∈ st.sentCache) :
    sendEvent ch d hh mm raw idx sched ex ok st = some (st, []) := by
  unfold sendEvent
  cases hr : resolveParts raw sched ex
  · rw [hr] at hres; exact absurd hres (by simp)
  · rename_i parts
    obtain ⟨text, files⟩ := parts
    dsimp only
    rw [if_pos hk]

/-- C1: `_send_event` sends at most one message per
(destination, date, time, index) key: after any successful call the key is in
the sent-event ledger; the resulting state does not depend on whether
`channel.send` fails (the exception is caught after the key was added); and a
second call for the same key sends nothing and leaves the ledger unchanged,
whatever event, document or tick it comes from. -/
theorem C1_send_at_most_once :
    ∀ (ch : Nat) (d : Date) (hh mm : Nat) (raw : Obj) (idx : Nat) (sched : Obj)
      (ex : String → Bool) (ok : Bool) (st st1 : SchedState) (msgs1 : List SentMsg),
      sendEvent ch d hh mm raw idx sched ex ok st = some (st1, msgs1) →
      sendEventKey ch d hh mm idx ∈ st1.sentCache ∧
      (∀ ok', sendEvent ch d hh mm raw idx sched ex ok st
          = sendEvent ch d hh mm raw idx sched ex ok' st) ∧
      (∀ (raw' sched' : Obj) (ex' : String → Bool) (ok' : Bool)
          (st2 : SchedState) (msgs2 : List SentMsg),
        sendEvent ch d hh mm raw' idx sched' ex' ok' st1 = some (st2, msgs2) →
        msgs2 = [] ∧ st2 = st1) := by
  intro ch d hh mm raw idx sched ex ok st st1 msgs1 h
  refine ⟨(sendEvent_mem ch d hh mm raw idx sched ex ok st st1 msgs1 h).1,
    fun ok' => rfl, ?_⟩
  intro raw' sched' ex' ok' st2 msgs2 h2
  have hmem := (sendEvent_mem ch d hh mm raw idx sched ex ok st st1 msgs1 h).1
  rcases (sendEvent_inv ch d hh mm raw' idx sched' ex' ok' st1 st2 msgs2 h2).2 with
    ⟨-, hst, hm⟩ | ⟨hk, -⟩
  · exact ⟨hm, hst⟩
  · exact absurd hmem hk

theorem C1_witness :
    sendEventKey 1 ⟨2025, 10, 16⟩ 10 0 0
        ∈ (SchedState.mk [sendEventKey 1 ⟨2025, 10, 16⟩ 10 0 0]).sentCache :=
  (C1_send_at_most_once 1 ⟨2025, 10, 16⟩ 10 0 [("text", .vStr "x")] 0 []
    (fun _ => false) true ⟨[]⟩ ⟨[sendEventKey 1 ⟨2025, 10, 16⟩ 10 0 0]⟩
    [⟨1, "x", []⟩] rfl).1

/-- C4 counterexample: an event resolving to an empty message (here
`text = ""`, no image) is skipped, but the ledger does NOT stay unchanged —
the key is recorded before the empty-message check. -/
theorem C4_counterexample :
    sendEvent 1 ⟨2025, 10, 16⟩ 10 0 [("text", .vStr "")] 0 [] (fun _ => false) true ⟨[]⟩
      = some (⟨[sendEventKey 1 ⟨2025, 10, 16⟩ 10 0 0]⟩, []) ∧
    (SchedState.mk [sendEventKey 1 ⟨2025, 10, 16⟩ 10 0 0]) ≠ ⟨[]⟩ := by
  exact ⟨rfl, by simp⟩

/-- C4 (amended): a due event resolving to an empty message (no text after
stripping, no attachment files) is skipped — nothing is sent — but the event
IS recorded as sent first: the ledger gains the key, so the same event is NOT
deliverable by a later tick within the grace window. -/
theorem C4_empty_skip_still_records :
    ∀ (ch : Nat) (d : Date) (hh mm : Nat) (raw : Obj) (idx : Nat) (sched : Obj)
      (ex : String → Bool) (ok : Bool) (st : SchedState),
      resolveParts raw sched ex = some ("", []) →
      sendEventKey ch d hh mm idx ∉ st.sentCache →
      sendEvent ch d hh mm raw idx sched ex ok st
        = some (⟨sendEventKey ch d hh mm idx :: st.sentCache⟩, []) := by
  intro ch d hh mm raw idx sched ex ok st hres hk
  unfold sendEvent
  rw [hres]
  dsimp only
  rw [if_neg hk, if_pos ⟨rfl, rfl⟩]

theorem C4_witness :
    sendEvent 1 ⟨2025, 10, 16⟩ 10 0 [("text", .vStr "")] 0 [] (fun _ => false) true ⟨[]⟩
      = some (⟨[sendEventKey 1 ⟨2025, 10, 16⟩ 10 0 0]⟩, []) :=
  C4_empty_skip_still_records 1 ⟨2025, 10, 16⟩ 10 0 [("text", .vStr "")] 0 []
    (fun _ => false) true ⟨[]⟩ rfl (by simp [sendEventKey, Date.iso, hhmm, padNat])

theorem sendPreviewLoop_keys (ch : Nat) (d : Date) (data : Obj) (ex : String → Bool) :
    ∀ (events : List Obj) (i : Nat) (st st' : SchedState) (msgs : List SentMsg),
      sendPreviewLoop ch d data ex i events st = some (st', msgs) →
      (∀ k ∈ st.sentCache, k ∈ st'.sentCache) ∧
      (∀ j, j < events.length → sendEventKey ch d 0 0 (i + j) ∈ st'.sentCache) := by
  intro events
  induction events with
  | nil =>
    intro i st st' msgs h
    refine ⟨fun k hk => ?_, fun j hj => absurd hj (by simp)⟩
    unfold sendPreviewLoop at h
    simp only [Option.some.injEq, Prod.mk.injEq] at h
    exact h.1 ▸ hk
  | cons ev rest ih =>
    intro i st st' msgs h
    unfold sendPreviewLoop at h
    cases h1 : sendEvent ch d 0 0 ev i data ex true st <;> rw [h1] at h
    · exact absurd h (by simp)
    rename_i p1
    obtain ⟨stA, m1⟩ := p1
    dsimp only at h
    cases h2 : sendPreviewLoop ch d data ex (i + 1) rest stA <;> rw [h2] at h
    · exact absurd h (by simp)
    rename_i p2
    obtain ⟨stB, m2⟩ := p2
    dsimp only at h
    simp only [Option.some.injEq, Prod.mk.injEq] at h
    obtain ⟨rfl, rfl⟩ := h
    have hA := sendEvent_mem ch d 0 0 ev i data ex true st stA m1 h1
    have hB := ih (i + 1) stA stB m2 h2
    refine ⟨fun k hk => hB.1 k (hA.2 k hk), ?_⟩
    intro j hj
    cases j with
    | zero => exact hB.1 _ (by simpa using hA.1)
    | succ j' =>
      have := hB.2 j' (by simpa using hj)
      rw [show i + 1 + j' = i + (j' + 1) by omega] at this
      exact this

theorem sendPreviewLoop_rerun (ch : Nat) (d : Date) (data : Obj) (ex : String → Bool) :
    ∀ (events : List Obj) (i : Nat) (st st' stF : SchedState) (msgs : List SentMsg),
      sendPreviewLoop ch d data ex i events st = some (st', msgs) →
      (∀ j, j < events.length → sendEventKey ch d 0 0 (i + j) ∈ stF.sentCache) →
      sendPreviewLoop ch d data ex i events stF = some (stF, []) := by
  intro events
  induction events with
  | nil => intro i st st' stF msgs _ _; rfl
  | cons ev rest ih =>
    intro i st st' stF msgs h hkeys
    unfold sendPreviewLoop at h
    cases h1 : sendEvent ch d 0 0 ev i data ex true st <;> rw [h1] at h
    · exact absurd h (by simp)
    rename_i p1
    obtain ⟨stA, m1⟩ := p1
    dsimp only at h
    cases h2 : sendPreviewLoop ch d data ex (i + 1) rest stA <;> rw [h2] at h
    · exact absurd h (by simp)
    rename_i p2
    obtain ⟨stB, m2⟩ := p2
    have hres := (sendEvent_inv ch d 0 0 ev i data ex true st stA m1 h1).1
    have hstep : sendEvent ch d 0 0 ev i data ex true stF = some (stF, []) :=
      sendEvent_skip ch d 0 0 ev i data ex true stF hres
        (by simpa using hkeys 0 (by simp))
    have hrest : sendPreviewLoop ch d data ex (i + 1) rest stF = some (stF, []) := by
      refine ih (i + 1) stA stB stF m2 h2 ?_
      intro j hj
      rw [show i + 1 + j = i + (j + 1) by omega]
      exact hkeys (j + 1) (by simpa using hj)
    unfold sendPreviewLoop
    rw [hstep]
    dsimp only
    rw [hrest]
    rfl

/-- C10: the `%today`/`%day` preview routes every previewed event through
`_send_event` under the key (channel, previewed date, `00:00`, index) in the
same ledger as the timer loop: after a first preview all those keys are
recorded; a second preview of the same date in the same channel (same ledger
day) sends only the header; and a genuinely scheduled event at time `00:00`
with the same index in that channel is suppressed. -/
theorem C10_preview_shares_ledger :
    ∀ (ch : Nat) (d : Date) (data : Obj) (ex : String → Bool) (st0 st1 : SchedState)
      (msgs1 : List SentMsg) (events : List Obj),
      get_events_for_day (cycle_day_for d) data = some events → events ≠ [] →
      sendPreview ch d data ex st0 = some (st1, msgs1) →
      (∀ idx, idx < events.length → sendEventKey ch d 0 0 idx ∈ st1.sentCache) ∧
      sendPreview ch d data ex st1
        = some (st1, [⟨ch, previewHeader (cycle_day_for d) d events.length, []⟩]) ∧
      (∀ (raw' sched' : Obj) (ex' : String → Bool) (ok' : Bool) (idx : Nat),
        idx < events.length →
        ∀ (st2 : SchedState) (msgs2 : List SentMsg),
          sendEvent ch d 0 0 raw' idx sched' ex' ok' st1 = some (st2, msgs2) →
          msgs2 = [] ∧ st2 = st1) := by
  intro ch d data ex st0 st1 msgs1 events hev hne h
  unfold sendPreview at h
  rw [hev] at h
  dsimp only at h
  rw [if_neg (by simpa [List.isEmpty_iff] using hne)] at h
  cases hl : sendPreviewLoop ch d data ex 0 events st0 <;> rw [hl] at h
  · exact absurd h (by simp)
  rename_i p
  obtain ⟨stL, msgsL⟩ := p
  dsimp only at h
  simp only [Option.some.injEq, Prod.mk.injEq] at h
  obtain ⟨rfl, rfl⟩ := h
  have hkeys0 := (sendPreviewLoop_keys ch d data ex events 0 st0 stL msgsL hl).2
  have hkeys : ∀ idx, idx < events.length → sendEventKey ch d 0 0 idx ∈ stL.sentCache := by
    intro idx hidx
    simpa using hkeys0 idx hidx
  refine ⟨hkeys, ?_, ?_⟩
  · unfold sendPreview
    rw [hev]
    dsimp only
    rw [if_neg (by simpa [List.isEmpty_iff] using hne)]
    rw [sendPreviewLoop_rerun ch d data ex events 0 st0 stL stL msgsL hl
      (fun j hj => by simpa using hkeys j hj)]
  · intro raw' sched' ex' ok' idx hidx st2 msgs2 h2
    rcases (sendEvent_inv ch d 0 0 raw' idx sched' ex' ok' stL st2 msgs2 h2).2 with
      ⟨-, hst, hm⟩ | ⟨hk, -⟩
    · exact ⟨hm, hst⟩
    · exact absurd (hkeys idx hidx) hk

theorem C10_witness :
    sendPreview 1 ⟨2025, 10, 16⟩
        [("days", .vDict [("1", .vList [.vDict [("time", .vStr "10:00"),
          ("text", .vStr "hi")]])])] (fun _ => false)
        ⟨["1|2025-10-16|00:00|0"]⟩
      = some (⟨["1|2025-10-16|00:00|0"]⟩,
          [⟨1, previewHeader (cycle_day_for ⟨2025, 10, 16⟩) ⟨2025, 10, 16⟩ 1, []⟩]) :=
  (C10_preview_shares_ledger 1 ⟨2025, 10, 16⟩
    [("days", .vDict [("1", .vList [.vDict [("time", .vStr "10:00"),
      ("text", .vStr "hi")]])])] (fun _ => false)
    ⟨[]⟩ ⟨["1|2025-10-16|00:00|0"]⟩
    [⟨1, previewHeader (cycle_day_for ⟨2025, 10, 16⟩) ⟨2025, 10, 16⟩ 1, []⟩,
     ⟨1, "hi", []⟩]
    [[("time", .vStr "10:00"), ("text", .vStr "hi")]]
    rfl (by simp) rfl).2.1

/-! ### Claim C9: snapshot idempotence -/

/-- C9: when the remote store already holds a snapshot captured today,
`insert_daily_snapshot` with a non-empty row list creates no snapshot and
inserts no player-stats rows, returning `rows_inserted = 0, skipped = true`
and the existing snapshot's label and id (the selected snapshot is one of
today's snapshots in the store). -/
theorem C9_snapshot_idempotent :
    ∀ (rows : List Row) (todayStr tsLabel nowIso : String) (st : D1State)
      (snap : Snapshot),
      rows ≠ [] →
      todaysSnapshot st.snapshots todayStr = some snap →
      snap ∈ st.snapshots ∧ snap.captured_at.take 10 = todayStr ∧
      (insert_daily_snapshot rows todayStr tsLabel nowIso st).1
        = ⟨some snap.label, some snap.id, 0, true⟩ ∧
      (insert_daily_snapshot rows todayStr tsLabel nowIso st).2.snapshots
        = st.snapshots ∧
      (insert_daily_snapshot rows todayStr tsLabel nowIso st).2.player_stats
        = st.player_stats := by
  intro rows todayStr tsLabel nowIso st snap hrows hsnap
  have hmem : snap ∈ st.snapshots ∧ snap.captured_at.take 10 = todayStr := by
    unfold todaysSnapshot at hsnap
    have h1 := List.mem_of_mem_head? hsnap
    have h2 := (List.mem_insertionSort _).mp h1
    have h3 := List.mem_filter.mp h2
    exact ⟨h3.1, by simpa using h3.2⟩
  have hne : rows.isEmpty = false := by
    cases rows with
    | nil => exact absurd rfl hrows
    | cons a l => rfl
  refine ⟨hmem.1, hmem.2, ?_, ?_, ?_⟩ <;>
    · unfold insert_daily_snapshot
      rw [hne]
      dsimp only
      rw [show todaysSnapshot st.snapshots todayStr = some snap from hsnap]
      rfl

theorem C9_witness :
    (insert_daily_snapshot [⟨some 1, some 2, some 3, some 4, some 5, some "p", some "g"⟩]
        "2025-10-16" "20251016_040000" "2025-10-16T04:00:00"
        ⟨[⟨7, "daily_data_20251016_035900", "2025-10-16T03:59:00"⟩], [], [], [], 8⟩).1
      = ⟨some "daily_data_20251016_035900", some 7, 0, true⟩ :=
  (C9_snapshot_idempotent
    [⟨some 1, some 2, some 3, some 4, some 5, some "p", some "g"⟩]
    "2025-10-16" "20251016_040000" "2025-10-16T04:00:00"
    ⟨[⟨7, "daily_data_20251016_035900", "2025-10-16T03:59:00"⟩], [], [], [], 8⟩
    ⟨7, "daily_data_20251016_035900", "2025-10-16T03:59:00"⟩
    (by simp) rfl).2.2.1

end QiBot
